import Mathlib

/-!
Verification development for the FrameFolio upload-ingestion frontend.

The definitions below are shallow embeddings of the JavaScript source under
`frontend/src/components/modals/`.  Numeric values carried by the UI
(normalized crop coordinates, preview sizes, aspect ratios) are embedded as
exact rationals (`ℚ`); JS objects become structures; the event-driven
handlers become pure functions from their inputs to the data they construct.
Definitions whose originating code is the backend (absent from the frontend
tree) are modelled from the specification and say so in their doc comment.
-/

namespace FrameFolio

/-- A normalized crop rectangle, as carried by the `cropBox` React state of
`CropPositioningModal` (`{x, y, width, height}`, fractions of the source
image). -/
structure CropBox where
  x : ℚ
  y : ℚ
  width : ℚ
  height : ℚ
  deriving Repr, DecidableEq

/-- The initial `useState` value of `cropBox` in `CropPositioningModal.jsx`:
`{ x: 0.1, y: 0.1, width: 0.8, height: 0.8 }`. -/
def cropPositioningInitialBox : CropBox :=
  { x := 0.1, y := 0.1, width := 0.8, height := 0.8 }

/-- The CropBox invariants of the data model: `0 ≤ x`, `0 ≤ y`,
`x + width ≤ 1`, `y + height ≤ 1`, `width > 0`, `height > 0`. -/
def CropBoxInvariant (b : CropBox) : Prop :=
  0 ≤ b.x ∧ 0 ≤ b.y ∧ b.x + b.width ≤ 1 ∧ b.y + b.height ≤ 1 ∧
    0 < b.width ∧ 0 < b.height

instance (b : CropBox) : Decidable (CropBoxInvariant b) := by
  unfold CropBoxInvariant; infer_instance

/-- One drag-move update from `handleMouseMove` in
`CropPositioningModal.jsx`: with `deltaX = (currentX - dragOffset.x) /
previewWidth` and `deltaY` likewise, the new box is
`{ ...prev, x: Math.max(0, Math.min(1 - prev.width, prev.x + deltaX)),
y: Math.max(0, Math.min(1 - prev.height, prev.y + deltaY)) }`. -/
def dragMove (prev : CropBox) (deltaX deltaY : ℚ) : CropBox :=
  { prev with
    x := max 0 (min (1 - prev.width) (prev.x + deltaX))
    y := max 0 (min (1 - prev.height) (prev.y + deltaY)) }

/-- Folding a whole sequence of drag-move updates over a starting box. -/
def dragRun (b : CropBox) (ds : List (ℚ × ℚ)) : CropBox :=
  ds.foldl (fun acc d => dragMove acc d.1 d.2) b

/-- The body of the POST `position` request built by `handleSubmit`:
`{ filename: result.filename, crop_box: cropBox }`. -/
structure PositionRequest where
  filename : String
  crop_box : CropBox
  deriving Repr, DecidableEq

/-- `handleSubmit` in `CropPositioningModal.jsx` sends the current `cropBox`
under the paused file's filename. -/
def handleSubmitBody (filename : String) (box : CropBox) : PositionRequest :=
  { filename := filename, crop_box := box }

theorem dragMove_width (b : CropBox) (dx dy : ℚ) : (dragMove b dx dy).width = b.width := rfl

theorem dragMove_height (b : CropBox) (dx dy : ℚ) : (dragMove b dx dy).height = b.height := rfl

theorem dragRun_width (b : CropBox) (ds : List (ℚ × ℚ)) :
    (dragRun b ds).width = b.width := by
  induction ds generalizing b with
  | nil => rfl
  | cons d ds ih => simpa [dragRun, List.foldl_cons, dragMove] using ih (dragMove b d.1 d.2)

theorem dragRun_height (b : CropBox) (ds : List (ℚ × ℚ)) :
    (dragRun b ds).height = b.height := by
  induction ds generalizing b with
  | nil => rfl
  | cons d ds ih => simpa [dragRun, List.foldl_cons, dragMove] using ih (dragMove b d.1 d.2)

theorem cropBoxInvariant_dragMove {b : CropBox} (h : CropBoxInvariant b) (dx dy : ℚ) :
    CropBoxInvariant (dragMove b dx dy) := by
  obtain ⟨hx, hy, hxw, hyh, hw, hh⟩ := h
  have hw1 : 0 ≤ 1 - b.width := by linarith
  have hh1 : 0 ≤ 1 - b.height := by linarith
  refine ⟨le_max_left _ _, le_max_left _ _, ?_, ?_, hw, hh⟩
  · have : max 0 (min (1 - b.width) (b.x + dx)) ≤ 1 - b.width :=
      max_le hw1 (min_le_left _ _)
    simpa [dragMove] using by linarith [this]
  · have : max 0 (min (1 - b.height) (b.y + dy)) ≤ 1 - b.height :=
      max_le hh1 (min_le_left _ _)
    simpa [dragMove] using by linarith [this]

theorem cropBoxInvariant_dragRun {b : CropBox} (h : CropBoxInvariant b)
    (ds : List (ℚ × ℚ)) : CropBoxInvariant (dragRun b ds) := by
  induction ds generalizing b with
  | nil => exact h
  | cons d ds ih =>
      simpa [dragRun, List.foldl_cons] using ih (cropBoxInvariant_dragMove h d.1 d.2)

theorem cropPositioningInitialBox_invariant : CropBoxInvariant cropPositioningInitialBox := by
  norm_num [CropBoxInvariant, cropPositioningInitialBox]

/-- C1. Starting from the default crop box `{x:0.1, y:0.1, width:0.8,
height:0.8}`, after every finite sequence of drag-move updates applied by
`handleMouseMove`, the crop box sent by `handleSubmit` in the position
request satisfies the CropBox invariants: `0 ≤ x`, `0 ≤ y`, `x + width ≤ 1`,
`y + height ≤ 1`, `width > 0` and `height > 0`. -/
theorem crop_position_request_satisfies_invariant (filename : String)
    (ds : List (ℚ × ℚ)) :
    CropBoxInvariant
      (handleSubmitBody filename (dragRun cropPositioningInitialBox ds)).crop_box :=
  cropBoxInvariant_dragRun cropPositioningInitialBox_invariant ds

/-- C3. When a file enters the crop-pending state, `CropPositioningModal`
initializes its crop box to exactly `x = 0.1`, `y = 0.1`, `width = 0.8`,
`height = 0.8`, the default CropBox the spec prescribes. -/
theorem crop_initial_box_is_spec_default :
    cropPositioningInitialBox.x = 1 / 10 ∧ cropPositioningInitialBox.y = 1 / 10 ∧
      cropPositioningInitialBox.width = 8 / 10 ∧ cropPositioningInitialBox.height = 8 / 10 := by
  refine ⟨?_, ?_, ?_, ?_⟩ <;> norm_num [cropPositioningInitialBox]

/-- C8. Every drag-move update changes only the `x` and `y` fields of the
crop box; `width` and `height` are never modified after initialization, so
the crop box submitted via the position request has `width = 0.8` and
`height = 0.8` after any sequence of drag moves. -/
theorem drag_moves_preserve_extent (filename : String) (ds : List (ℚ × ℚ)) :
    (∀ b : CropBox, ∀ dx dy : ℚ,
        (dragMove b dx dy).width = b.width ∧ (dragMove b dx dy).height = b.height) ∧
      (handleSubmitBody filename (dragRun cropPositioningInitialBox ds)).crop_box.width
          = 8 / 10 ∧
      (handleSubmitBody filename (dragRun cropPositioningInitialBox ds)).crop_box.height
          = 8 / 10 := by
  refine ⟨fun b dx dy => ⟨dragMove_width b dx dy, dragMove_height b dx dy⟩, ?_, ?_⟩
  · rw [handleSubmitBody, dragRun_width]; norm_num [cropPositioningInitialBox]
  · rw [handleSubmitBody, dragRun_height]; norm_num [cropPositioningInitialBox]

/-- The body of the POST `duplicate-action` request built by `handleAction`
in `DuplicateModal.jsx`: `{ filename: result.filename, action }`. -/
structure DuplicateRequest where
  filename : String
  action : String
  deriving Repr, DecidableEq

/-- `handleAction` builds the request body from the paused file's filename
and the action string it was invoked with. -/
def handleActionBody (filename action : String) : DuplicateRequest :=
  { filename := filename, action := action }

/-- The action strings wired to the three footer buttons of
`DuplicateModal.jsx` (`'skip'`, `'overwrite'`, `'import_anyway'`) — the only
call sites of `handleAction` in the component. -/
def duplicateModalButtonActions : List String :=
  ["skip", "overwrite", "import_anyway"]

/-- All duplicate-action requests the modal can send for a given paused
file: one per footer button, via `handleAction`. -/
def duplicateModalRequests (filename : String) : List DuplicateRequest :=
  duplicateModalButtonActions.map (handleActionBody filename)

/-- The JSON body of the server's reply as `handleAction` inspects it: only
the presence of an `error` field matters (`if (!data.error) onAction(action)`). -/
structure DuplicateResponse where
  error : Option String
  deriving Repr, DecidableEq

/-- The UI events `DuplicateModal.jsx` reacts to: a click on the
`modal-overlay` backdrop, or a click on one of the three footer buttons. -/
inductive DuplicateEvent where
  | overlayClick : DuplicateEvent
  | buttonClick (action : String) : DuplicateEvent
  deriving Repr, DecidableEq

/-- The observable effects of handling one event: a POST of a
duplicate-action request, or an invocation of the `onAction` callback. -/
inductive DuplicateEffect where
  | postRequest (r : DuplicateRequest) : DuplicateEffect
  | invokeOnAction (action : String) : DuplicateEffect
  deriving Repr, DecidableEq

/-- The effect sequence of `DuplicateModal.jsx` for one event, given the
server's reply to any POST it performs.  The overlay's
`onClick={() => onAction('skip')}` invokes the callback directly with no
request; each button calls `handleAction(action)`, which POSTs the body and
then invokes `onAction(action)` only when the reply has no `error` field. -/
def duplicateModalHandle (filename : String) (ev : DuplicateEvent)
    (resp : DuplicateResponse) : List DuplicateEffect :=
  match ev with
  | .overlayClick => [.invokeOnAction "skip"]
  | .buttonClick action =>
      .postRequest (handleActionBody filename action) ::
        (if resp.error = none then [.invokeOnAction action] else [])

/-- C2. Every duplicate-action request the modal sends carries the
paused file's filename and an action drawn from exactly
`{skip, overwrite, import_anyway}`; no other action value is ever
submitted. -/
theorem duplicate_requests_well_formed (filename : String) (r : DuplicateRequest)
    (hr : r ∈ duplicateModalRequests filename) :
    r.filename = filename ∧
      (r.action = "skip" ∨ r.action = "overwrite" ∨ r.action = "import_anyway") := by
  simp only [duplicateModalRequests, duplicateModalButtonActions, List.map_cons,
    List.map_nil, List.mem_cons, List.not_mem_nil, or_false] at hr
  rcases hr with h | h | h <;> subst h <;> simp [handleActionBody]

theorem duplicate_requests_well_formed_witness :
    handleActionBody "b.jpg" "skip" ∈ duplicateModalRequests "b.jpg" ∧
      (handleActionBody "b.jpg" "skip").filename = "b.jpg" ∧
      ((handleActionBody "b.jpg" "skip").action = "skip" ∨
        (handleActionBody "b.jpg" "skip").action = "overwrite" ∨
        (handleActionBody "b.jpg" "skip").action = "import_anyway") := by
  have hmem : handleActionBody "b.jpg" "skip" ∈ duplicateModalRequests "b.jpg" := by
    simp [duplicateModalRequests, duplicateModalButtonActions]
  exact ⟨hmem, duplicate_requests_well_formed "b.jpg" (handleActionBody "b.jpg" "skip") hmem⟩

/-- C9. Dismissing the duplicate dialog via the overlay invokes the local
skip callback without sending any duplicate-action request; only the action
buttons perform the POST, and they invoke the callback exactly when the
response body carries no `error` field. -/
theorem duplicate_overlay_skips_locally (filename : String) (resp : DuplicateResponse) :
    duplicateModalHandle filename .overlayClick resp
        = [DuplicateEffect.invokeOnAction "skip"] ∧
      (∀ ev : DuplicateEvent, ∀ r : DuplicateRequest,
        DuplicateEffect.postRequest r ∈ duplicateModalHandle filename ev resp →
          ∃ a, ev = .buttonClick a ∧ r = handleActionBody filename a) ∧
      (∀ a : String,
        (DuplicateEffect.invokeOnAction a
            ∈ duplicateModalHandle filename (.buttonClick a) resp)
          ↔ resp.error = none) := by
  refine ⟨rfl, ?_, ?_⟩
  · intro ev r hmem
    cases ev with
    | overlayClick => simp [duplicateModalHandle] at hmem
    | buttonClick a =>
        refine ⟨a, rfl, ?_⟩
        simp only [duplicateModalHandle, List.mem_cons] at hmem
        rcases hmem with h | h
        · exact (DuplicateEffect.postRequest.injEq _ _).mp h.symm |>.symm ▸ rfl
        · by_cases he : resp.error = none <;> simp [he] at h
  · intro a
    by_cases he : resp.error = none <;> simp [duplicateModalHandle, he]

theorem duplicate_overlay_skips_locally_witness :
    duplicateModalHandle "b.jpg" .overlayClick ⟨none⟩
      = [DuplicateEffect.invokeOnAction "skip"] :=
  (duplicate_overlay_skips_locally "b.jpg" ⟨none⟩).1

/-- The target canvas width shown and used by the frontend
(`Will be: 3840×2160 (4K Frame TV)`). -/
def targetWidth : ℕ := 3840

/-- The target canvas height. -/
def targetHeight : ℕ := 2160

/-- `const targetAspect = 3840 / 2160` in `CropPositioningModal`
(`ImageDetailModal.jsx`), embedded as an exact rational. -/
def targetAspect : ℚ := 3840 / 2160

/-- C5. The configured output canvas is exactly 3840×2160, and the
target aspect ratio used for crop decisions equals `16/9` as an exact
rational identity. -/
theorem target_canvas_is_4k_sixteen_by_nine :
    targetWidth = 3840 ∧ targetHeight = 2160 ∧ targetAspect = 16 / 9 := by
  refine ⟨rfl, rfl, ?_⟩
  norm_num [targetAspect]

/-- The preview-box bound `maxWidth = 400` in `CropPositioningModal.jsx`. -/
def maxPreviewWidth : ℚ := 400

/-- The preview-box bound `maxHeight = 400` in `CropPositioningModal.jsx`. -/
def maxPreviewHeight : ℚ := 400

/-- The preview-dimension computation of `CropPositioningModal.jsx`: with
`displayAspect = width / height`, if `displayAspect > maxWidth / maxHeight`
then `previewWidth = maxWidth`, `previewHeight = maxWidth / displayAspect`;
else `previewHeight = maxHeight`, `previewWidth = maxHeight * displayAspect`.
Returns `(previewWidth, previewHeight)`. -/
def previewDims (width height : ℚ) : ℚ × ℚ :=
  let displayAspect := width / height
  if displayAspect > maxPreviewWidth / maxPreviewHeight then
    (maxPreviewWidth, maxPreviewWidth / displayAspect)
  else
    (maxPreviewHeight * displayAspect, maxPreviewHeight)

/-- C10. For every source image with positive width and height, the
computed preview dimensions satisfy `previewWidth ≤ 400`,
`previewHeight ≤ 400`, at least one of the two equals 400, and
`previewWidth / previewHeight` equals the source aspect `width / height`
exactly. -/
theorem previewDims_of_wide {width height : ℚ} (hgt : width / height > maxPreviewWidth / maxPreviewHeight) :
    previewDims width height = (maxPreviewWidth, maxPreviewWidth / (width / height)) := by
  simp [previewDims, hgt]

theorem previewDims_of_tall {width height : ℚ} (hgt : ¬ width / height > maxPreviewWidth / maxPreviewHeight) :
    previewDims width height = (maxPreviewHeight * (width / height), maxPreviewHeight) := by
  simp [previewDims, hgt]

theorem preview_dims_fit_and_preserve_aspect (width height : ℚ)
    (hw : 0 < width) (hh : 0 < height) :
    (previewDims width height).1 ≤ 400 ∧ (previewDims width height).2 ≤ 400 ∧
      ((previewDims width height).1 = 400 ∨ (previewDims width height).2 = 400) ∧
      (previewDims width height).1 / (previewDims width height).2 = width / height := by
  have ha : 0 < width / height := div_pos hw hh
  by_cases hgt : width / height > maxPreviewWidth / maxPreviewHeight
  · rw [previewDims_of_wide hgt]
    have h1 : (1 : ℚ) ≤ width / height := by
      have h400 : (maxPreviewWidth : ℚ) / maxPreviewHeight = 1 := by
        norm_num [maxPreviewWidth, maxPreviewHeight]
      rw [h400] at hgt
      exact hgt.le
    refine ⟨le_of_eq rfl, ?_, Or.inl rfl, ?_⟩
    · exact div_le_self (by norm_num [maxPreviewWidth]) h1
    · show maxPreviewWidth / (maxPreviewWidth / (width / height)) = width / height
      rw [div_div_eq_mul_div]
      exact mul_div_cancel_left₀ _ (by norm_num [maxPreviewWidth])
  · rw [previewDims_of_tall hgt]
    have hle : width / height ≤ 1 := by
      have h400 : (maxPreviewWidth : ℚ) / maxPreviewHeight = 1 := by
        norm_num [maxPreviewWidth, maxPreviewHeight]
      rw [h400] at hgt
      exact not_lt.mp hgt
    refine ⟨?_, le_of_eq rfl, Or.inr rfl, ?_⟩
    · calc maxPreviewHeight * (width / height) ≤ maxPreviewHeight * 1 :=
            mul_le_mul_of_nonneg_left hle (by norm_num [maxPreviewHeight])
        _ = 400 := by norm_num [maxPreviewHeight]
    · show maxPreviewHeight * (width / height) / maxPreviewHeight = width / height
      exact mul_div_cancel_left₀ _ (by norm_num [maxPreviewHeight])

theorem preview_dims_fit_and_preserve_aspect_witness :
    (0 : ℚ) < 800 ∧ (0 : ℚ) < 800 ∧
      (previewDims 800 800).1 ≤ 400 ∧ (previewDims 800 800).2 ≤ 400 ∧
      ((previewDims 800 800).1 = 400 ∨ (previewDims 800 800).2 = 400) ∧
      (previewDims 800 800).1 / (previewDims 800 800).2 = 800 / 800 := by
  refine ⟨by norm_num, by norm_num, ?_⟩
  have h := preview_dims_fit_and_preserve_aspect 800 800 (by norm_num) (by norm_num)
  exact ⟨h.1, h.2.1, h.2.2.1, h.2.2.2⟩

/-- The per-file result record of the data model as the client consumes it
(`filename` and the per-file `status` string). -/
structure FileResult where
  filename : String
  status : String
  deriving Repr, DecidableEq

/-- One polled `data` object as `UploadProgressModal.jsx` reads it: the six
fields `{status, progress, results[], total_files, current_step, errors[]}`. -/
structure StatusSnapshot where
  status : String
  progress : ℕ
  results : List FileResult
  total_files : ℕ
  current_step : String
  errors : List String
  deriving Repr, DecidableEq

/-- The polling period of `UploadProgressModal.jsx`: `setInterval(..., 300)`. -/
def pollIntervalMs : ℕ := 300

/-- Whether a snapshot's status is terminal for the polling loop (the two
statuses on which the interval is cleared). -/
def isTerminalStatus (data : StatusSnapshot) : Bool :=
  data.status = "error" || data.status = "complete"

/-- What the polling loop does after one poll, per the interval handler of
`UploadProgressModal.jsx`: on `status === 'error'` it clears the interval
and calls `onError(data.errors)`; on `status === 'complete'` it clears the
interval and calls `onComplete(data)`; otherwise it keeps polling. -/
inductive PollOutcome where
  | running : PollOutcome
  | completed (data : StatusSnapshot) : PollOutcome
  | errored (errors : List String) : PollOutcome
  deriving Repr, DecidableEq

/-- One tick of the interval handler applied to the polled snapshot. -/
def pollTick (data : StatusSnapshot) : PollOutcome :=
  if data.status = "error" then .errored data.errors
  else if data.status = "complete" then .completed data
  else .running

/-- The whole polling loop over the stream of snapshots the server would
serve on successive ticks: returns how many polls were performed and the
outcome.  The loop stops (the interval is cleared) as soon as a tick
produces a non-`running` outcome. -/
def pollRun : List StatusSnapshot → ℕ × PollOutcome
  | [] => (0, PollOutcome.running)
  | data :: rest =>
      if data.status = "error" then (1, .errored data.errors)
      else if data.status = "complete" then (1, .completed data)
      else
        let r := pollRun rest
        (r.1 + 1, r.2)

theorem pollRun_cons_terminal {data : StatusSnapshot} (rest : List StatusSnapshot)
    (h : isTerminalStatus data = true) :
    pollRun (data :: rest) = (1, pollTick data) := by
  have h' : data.status = "error" ∨ data.status = "complete" := by
    simpa [isTerminalStatus] using h
  rcases h' with he | hc
  · simp [pollRun, pollTick, he]
  · by_cases he : data.status = "error"
    · simp [pollRun, pollTick, he]
    · simp [pollRun, pollTick, he, hc]

theorem pollRun_cons_nonterminal {data : StatusSnapshot} (rest : List StatusSnapshot)
    (h : isTerminalStatus data = false) :
    pollRun (data :: rest) = ((pollRun rest).1 + 1, (pollRun rest).2) := by
  have he : ¬ data.status = "error" := by
    intro hh; simp [isTerminalStatus, hh] at h
  have hc : ¬ data.status = "complete" := by
    intro hh; simp [isTerminalStatus, hh] at h
  simp [pollRun, he, hc]

theorem pollTick_ne_running_of_terminal {data : StatusSnapshot}
    (h : isTerminalStatus data = true) : pollTick data ≠ .running := by
  have h' : data.status = "error" ∨ data.status = "complete" := by
    simpa [isTerminalStatus] using h
  rcases h' with he | hc
  · simp [pollTick, he]
  · by_cases he : data.status = "error" <;> simp [pollTick, he, hc]

theorem pollRun_all_nonterminal (snaps : List StatusSnapshot)
    (h : ∀ s ∈ snaps, isTerminalStatus s = false) :
    pollRun snaps = (snaps.length, .running) := by
  induction snaps with
  | nil => rfl
  | cons data rest ih =>
      rw [pollRun_cons_nonterminal rest (h data (List.mem_cons_self data rest)),
        ih fun s hs => h s (List.mem_cons_of_mem data hs)]
      simp

theorem pollRun_first_terminal (snaps : List StatusSnapshot) (i : ℕ)
    (hi : i < snaps.length) (hterm : isTerminalStatus (snaps.get ⟨i, hi⟩) = true)
    (hpre : ∀ j, (hj : j < i) →
      isTerminalStatus (snaps.get ⟨j, Nat.lt_trans hj hi⟩) = false) :
    pollRun snaps = (i + 1, pollTick (snaps.get ⟨i, hi⟩)) := by
  induction snaps generalizing i with
  | nil => exact absurd hi (Nat.not_lt_zero i)
  | cons data rest ih =>
      cases i with
      | zero => exact pollRun_cons_terminal rest hterm
      | succ i' =>
          have hhead : isTerminalStatus data = false := hpre 0 (Nat.succ_pos i')
          have hi' : i' < rest.length := Nat.lt_of_succ_lt_succ hi
          rw [pollRun_cons_nonterminal rest hhead,
            ih i' hi' hterm fun j hj => hpre (j + 1) (Nat.succ_lt_succ hj)]
          rfl

/-- C4. The client polls job status on a fixed 300 ms interval, keeps
polling while the reported status is non-terminal, and on the first
snapshot whose status is `'complete'` or `'error'` it clears the interval
and invokes the completion or error callback — it performs exactly
`i + 1` polls when the first terminal snapshot sits at index `i`, so it
never polls again after a terminal snapshot. -/
theorem polling_stops_at_first_terminal (snaps : List StatusSnapshot) (i : ℕ)
    (hi : i < snaps.length) (hterm : isTerminalStatus (snaps.get ⟨i, hi⟩) = true)
    (hpre : ∀ j, (hj : j < i) →
      isTerminalStatus (snaps.get ⟨j, Nat.lt_trans hj hi⟩) = false) :
    pollIntervalMs = 300 ∧
      (∀ snaps' : List StatusSnapshot,
        (∀ s ∈ snaps', isTerminalStatus s = false) →
          pollRun snaps' = (snaps'.length, .running)) ∧
      (pollRun snaps).1 = i + 1 ∧
      (pollRun snaps).2 = pollTick (snaps.get ⟨i, hi⟩) ∧
      (pollRun snaps).2 ≠ .running := by
  have hrun := pollRun_first_terminal snaps i hi hterm hpre
  exact ⟨rfl, pollRun_all_nonterminal, by rw [hrun], by rw [hrun],
    by rw [hrun]; exact pollTick_ne_running_of_terminal hterm⟩

theorem polling_stops_at_first_terminal_witness :
    (pollRun [⟨"processing", 50, [], 2, "step", []⟩, ⟨"complete", 100, [], 2, "", []⟩]).1
        = 2 ∧
      (pollRun [⟨"processing", 50, [], 2, "step", []⟩, ⟨"complete", 100, [], 2, "", []⟩]).2
        = .completed ⟨"complete", 100, [], 2, "", []⟩ := by
  have h := polling_stops_at_first_terminal
    [⟨"processing", 50, [], 2, "step", []⟩, ⟨"complete", 100, [], 2, "", []⟩]
    1 (by decide) (by decide) (by decide)
  refine ⟨h.2.2.1, ?_⟩
  rw [h.2.2.2.1]
  rfl

/-- Modelled from the spec: the backend `UploadJob` record (§3) — the
frontend tree holds only the pipeline's clients, not the Job Manager — with
id, created_at, status, total_files, processed_count, results in submission
order, current_step and errors. -/
structure UploadJob where
  id : ℕ
  created_at : ℕ
  status : String
  total_files : ℕ
  processed_count : ℕ
  results : List FileResult
  current_step : String
  errors : List String
  deriving Repr, DecidableEq

/-- Modelled from the spec: the backend Status Reporter (§4.5) is not in the
frontend tree; it serializes a `UploadJob` into `{status, progress,
results[], total_files, current_step, errors[]}` where
`progress = floor(processed_count / total_files * 100)` (natural division
is that floor). -/
def serializeJob (j : UploadJob) : StatusSnapshot :=
  { status := j.status
    progress := j.processed_count * 100 / j.total_files
    results := j.results
    total_files := j.total_files
    current_step := j.current_step
    errors := j.errors }

/-- The six field names of the serialized snapshot, in the order of §4.5. -/
def statusSnapshotFields : List String :=
  ["status", "progress", "results", "total_files", "current_step", "errors"]

/-- The snapshot fields `UploadProgressModal.jsx` reads from each polled
`data`, in first-read order: `data.status`, `data.errors`,
`status.progress`, `status.results`, `status.total_files`,
`status.current_step`. -/
def uploadProgressModalConsumedFields : List String :=
  ["status", "errors", "progress", "results", "total_files", "current_step"]

/-- C6. A status snapshot is serialized as the six fields `{status,
progress, results[], total_files, current_step, errors[]}` with
`progress = floor(processed_count / total_files * 100)`, and these are
exactly the fields the polling client consumes. -/
theorem status_snapshot_serialization (j : UploadJob) :
    (serializeJob j).status = j.status ∧
      ((serializeJob j).progress : ℤ)
          = ⌊(j.processed_count : ℚ) / j.total_files * 100⌋ ∧
      (serializeJob j).results = j.results ∧
      (serializeJob j).total_files = j.total_files ∧
      (serializeJob j).current_step = j.current_step ∧
      (serializeJob j).errors = j.errors ∧
      statusSnapshotFields.Perm uploadProgressModalConsumedFields := by
  refine ⟨rfl, ?_, rfl, rfl, rfl, rfl, by decide⟩
  have hmul : (j.processed_count : ℚ) / j.total_files * 100
      = ((j.processed_count * 100 : ℕ) : ℚ) / ((j.total_files : ℕ) : ℚ) := by
    push_cast; ring
  rw [hmul, ← Int.natCast_floor_eq_floor (by positivity), Nat.floor_div_eq_div]
  simp [serializeJob]

/-- Modelled from the spec: the terminal per-file outcomes of the File
Processor FSM (§4.2) — a file ends accepted, skipped, or errored with a
message; the backend File Processor is not in the frontend tree. -/
inductive FileOutcome where
  | accepted : FileOutcome
  | skipped : FileOutcome
  | errored (msg : String) : FileOutcome
  deriving Repr, DecidableEq

/-- The FileResult status string recorded for each outcome. -/
def FileOutcome.statusString : FileOutcome → String
  | .accepted => "accepted"
  | .skipped => "skipped"
  | .errored _ => "error"

/-- Modelled from the spec: the mutable per-job state of the Job Manager
(§4.1) — the files not yet processed (submission order), the results so
far (completion order), and the job status. -/
structure JobState where
  queue : List (String × FileOutcome)
  results : List FileResult
  status : String
  deriving Repr, DecidableEq

/-- Modelled from the spec: `submit` (§4.1) creates a job over the batch
with an empty result list and launches the pipeline. -/
def submitJob (files : List (String × FileOutcome)) : JobState :=
  { queue := files, results := [], status := "processing" }

/-- Modelled from the spec: the terminal job status (§4.2 step 9) — `error`
only if every file in the batch errored, else `complete`. -/
def finishedStatus (results : List FileResult) : String :=
  if results.all (fun r => r.status = "error") then "error" else "complete"

/-- Modelled from the spec: one pipeline step (§4.2) — process the next
queued file, appending its FileResult; with an empty queue the job takes
its terminal status. -/
def jobStep (s : JobState) : JobState :=
  match s.queue with
  | [] => { s with status := finishedStatus s.results }
  | (name, outcome) :: rest =>
      { queue := rest
        results := s.results ++ [⟨name, outcome.statusString⟩]
        status := "processing" }

/-- Modelled from the spec: running the background pipeline to completion —
one step per file plus the terminal step. -/
def runJob (files : List (String × FileOutcome)) : JobState :=
  jobStep^[files.length + 1] (submitJob files)

theorem jobStep_iterate (queue : List (String × FileOutcome))
    (acc : List FileResult) (st : String) :
    jobStep^[queue.length + 1] ⟨queue, acc, st⟩ =
      ⟨[], acc ++ queue.map (fun p => ⟨p.1, p.2.statusString⟩),
        finishedStatus (acc ++ queue.map (fun p => ⟨p.1, p.2.statusString⟩))⟩ := by
  induction queue generalizing acc st with
  | nil =>
      simp [jobStep]
  | cons p rest ih =>
      obtain ⟨name, outcome⟩ := p
      rw [List.length_cons, Function.iterate_succ_apply]
      have hstep : jobStep ⟨(name, outcome) :: rest, acc, st⟩
          = ⟨rest, acc ++ [⟨name, outcome.statusString⟩], "processing"⟩ := rfl
      rw [hstep, ih]
      simp

/-- C7. For every submitted batch, once the job's status is terminal
(`'complete'` or `'error'`), the length of `results` equals `total_files`
and the results appear in submission order (the result filenames are the
submitted filenames, in order). -/
theorem terminal_job_results_complete_and_ordered
    (files : List (String × FileOutcome)) (hne : files ≠ []) :
    ((runJob files).status = "complete" ∨ (runJob files).status = "error") ∧
      (runJob files).results.length = files.length ∧
      (runJob files).results.map FileResult.filename = files.map Prod.fst := by
  have hrun := jobStep_iterate files [] "processing"
  rw [runJob, submitJob, hrun]
  refine ⟨?_, by simp, by simp⟩
  by_cases hall :
      (files.map (fun p => (⟨p.1, p.2.statusString⟩ : FileResult))).all
        (fun r => r.status = "error")
  · exact Or.inr (by simp [finishedStatus, hall])
  · exact Or.inl (by simp [finishedStatus, hall])

theorem terminal_job_results_complete_and_ordered_witness :
    ([("a.jpg", FileOutcome.accepted), ("b.jpg", FileOutcome.skipped),
        ("d.png", FileOutcome.accepted)] : List (String × FileOutcome)) ≠ [] ∧
      (runJob [("a.jpg", FileOutcome.accepted), ("b.jpg", FileOutcome.skipped),
          ("d.png", FileOutcome.accepted)]).status = "complete" ∧
      (runJob [("a.jpg", FileOutcome.accepted), ("b.jpg", FileOutcome.skipped),
          ("d.png", FileOutcome.accepted)]).results.length = 3 := by
  have h := terminal_job_results_complete_and_ordered
    [("a.jpg", FileOutcome.accepted), ("b.jpg", FileOutcome.skipped),
      ("d.png", FileOutcome.accepted)] (by decide)
  refine ⟨by decide, ?_, by simpa using h.2.1⟩
  rcases h.1 with hc | he
  · exact hc
  · exact absurd he (by decide)

end FrameFolio
